import Mathlib

/-!
Verification of the EPSS score download script (`scripts/download-epss-scores.py`).

Python strings are modelled as `List Char`; Python `datetime.date` values as a
`Date` structure carrying year/month/day, with `Date.Valid` modelling the
constructor invariant of `datetime.date` (months 1..12, days bounded by the
month length, years 1..9999).  Day arithmetic (`timedelta` addition and `date`
subtraction) is modelled through the proleptic Gregorian ordinal
(`Date.toOrdinal`, the translation of Python's `date.toordinal`).  Network and
filesystem effects are made explicit: the filesystem is an association list
from paths to file data, and the number of network fetches is a counter.
-/

namespace Epss

/-- `digitChar n` is the character for the decimal digit `n` (the model of
`'0' + n` used by `%d`-style formatting). -/
def digitChar (n : Nat) : Char := Char.ofNat (48 + n)

/-- Two-digit zero-padded decimal rendering, the model of `%02d`. -/
def pad2 (n : Nat) : List Char := [digitChar (n / 10), digitChar (n % 10)]

/-- Four-digit zero-padded decimal rendering, the model of `%04d`. -/
def pad4 (n : Nat) : List Char :=
  [digitChar (n / 1000), digitChar (n / 100 % 10), digitChar (n / 10 % 10), digitChar (n % 10)]

/-- Reads a list of decimal digit characters as a natural number. -/
def readDigits (l : List Char) : Nat := l.foldl (fun a c => a * 10 + (c.toNat - 48)) 0

/-- Decimal digit test, the model of the `\d` character class and of the digit
test done by `strptime`. -/
def isDigitC (c : Char) : Bool := 48 ≤ c.toNat && c.toNat ≤ 57

/-- A calendar date, the model of `datetime.date` (year, month, day). -/
structure Date where
  year : Nat
  month : Nat
  day : Nat
deriving DecidableEq, Repr

/-- Gregorian leap-year test, the model of `calendar.isleap` as used by
`datetime`. -/
def isLeap (y : Nat) : Bool := y % 4 == 0 && (y % 100 != 0 || y % 400 == 0)

/-- Number of days in month `m` of year `y` (0 for an out-of-range month). -/
def daysInMonth (y m : Nat) : Nat :=
  match m with
  | 1 => 31
  | 2 => if isLeap y then 29 else 28
  | 3 => 31
  | 4 => 30
  | 5 => 31
  | 6 => 30
  | 7 => 31
  | 8 => 31
  | 9 => 30
  | 10 => 31
  | 11 => 30
  | 12 => 31
  | _ => 0

/-- Days in year `y` strictly before month `m`. -/
def daysBeforeMonth (y m : Nat) : Nat :=
  match m with
  | 0 => 0
  | 1 => 0
  | n + 1 => daysBeforeMonth y n + daysInMonth y n

/-- The constructor invariant of `datetime.date`: year in `MINYEAR..MAXYEAR`
(1..9999), month in 1..12, day in 1..(length of the month). -/
def Date.Valid (d : Date) : Prop :=
  1 ≤ d.year ∧ d.year ≤ 9999 ∧ 1 ≤ d.month ∧ d.month ≤ 12 ∧
    1 ≤ d.day ∧ d.day ≤ daysInMonth d.year d.month

instance (d : Date) : Decidable d.Valid := by
  unfold Date.Valid; infer_instance

/-- Proleptic Gregorian ordinal of a date (day 1 is 0001-01-01), the model of
`date.toordinal` / `_ymd2ord`. -/
def Date.toOrdinal (d : Date) : Nat :=
  (365 * (d.year - 1) + (d.year - 1) / 4 + (d.year - 1) / 400) - (d.year - 1) / 100
    + daysBeforeMonth d.year d.month + d.day

/-- `date.isoformat()`: the `YYYY-MM-DD` rendering of a date. -/
def isoformat (d : Date) : List Char :=
  pad4 d.year ++ ('-' :: (pad2 d.month ++ ('-' :: pad2 d.day)))

/-- `List.span` specialised to digits: the longest digit prefix and the rest. -/
def takeDigits : List Char → List Char × List Char
  | [] => ([], [])
  | c :: rest =>
    if isDigitC c then
      let (ds, r) := takeDigits rest
      (c :: ds, r)
    else ([], c :: rest)

/-- Modelled from the source's use of
`datetime.datetime.strptime(date, "%Y-%m-%d").date()`: up to four digits of
year, a dash, up to two digits of month, a dash, up to two digits of day,
nothing else; the resulting numbers must form a constructible
`datetime.date`.  `none` models the `ValueError` raised on malformed input. -/
def strptimeIsoDate (s : List Char) : Option Date :=
  let (ys, r1) := takeDigits s
  match r1 with
  | '-' :: r2 =>
    let (ms, r3) := takeDigits r2
    match r3 with
    | '-' :: r4 =>
      let (ds, r5) := takeDigits r4
      if ys ≠ [] ∧ ys.length ≤ 4 ∧ ms ≠ [] ∧ ms.length ≤ 2 ∧ ds ≠ [] ∧ ds.length ≤ 2 ∧
          r5 = [] then
        let d : Date := ⟨readDigits ys, readDigits ms, readDigits ds⟩
        if d.Valid then some d else none
      else none
    | _ => none
  | _ => none

/-- Successor date: the effect of adding one day with `timedelta(days=1)`. -/
def nextDate (d : Date) : Date :=
  if d.day < daysInMonth d.year d.month then ⟨d.year, d.month, d.day + 1⟩
  else if d.month < 12 then ⟨d.year, d.month + 1, 1⟩
  else ⟨d.year + 1, 1, 1⟩

/-- Adding `n` days to a date, one day at a time. -/
def addDaysN (d : Date) : Nat → Date
  | 0 => d
  | n + 1 => nextDate (addDaysN d n)

/-- Modelled from the source's use of
`datetime.datetime.fromtimestamp(ts).date()`, with the local timezone taken to
be UTC and the timestamp non-negative: the date is the Unix epoch plus
`ts / 86400` whole days. -/
def epochToDate (ts : Nat) : Date := addDaysN ⟨1970, 1, 1⟩ (ts / 86400)

/-- The `TIME` union type of the script: `datetime.date`, `datetime.datetime`,
`str`, or a numeric epoch value.  `other` stands for a value of any
unsupported type.  A `datetime` carries its date part and the seconds of the
day (discarded by `.date()`). -/
inductive PyTime where
  | date (d : Date)
  | datetime (d : Date) (secondsOfDay : Nat)
  | str (s : List Char)
  | num (ts : Nat)
  | other
deriving DecidableEq, Repr

/-- Python truthiness of a `TIME` value: `0` and the empty string are falsy;
`date` and `datetime` objects are always truthy. -/
def PyTime.truthy : PyTime → Bool
  | .date _ => true
  | .datetime _ _ => true
  | .str s => s ≠ []
  | .num ts => ts ≠ 0
  | .other => true

/-- The error kinds raised by the script (`ValueError`, `KeyError`,
`AssertionError`), grouped by the spec's taxonomy. -/
inductive PErr where
  | invalidDate
  | unsupportedFormat
  | unknownFormat
  | discovery
deriving DecidableEq, Repr

/-- `parse_date` (lines 133-143): dates pass through, datetimes are truncated
to their date, strings go through `strptime("%Y-%m-%d")`, numbers through
`fromtimestamp`, and anything else raises `ValueError`. -/
def parse_date : PyTime → Except PErr Date
  | .date d => .ok d
  | .datetime d _ => .ok d
  | .str s =>
    match strptimeIsoDate s with
    | some d => .ok d
    | none => .error .invalidDate
  | .num ts => .ok (epochToDate ts)
  | .other => .error .invalidDate

/-- `MIN_DATE` (line 16). -/
def MIN_DATE : List Char := ['2', '0', '2', '2', '-', '0', '7', '-', '1', '5']

/-- `x or dflt` on an optional `TIME` argument: `None` and falsy values are
replaced by the default. -/
def pyOrDefault (x : Option PyTime) (dflt : PyTime) : PyTime :=
  match x with
  | some t => if t.truthy then t else dflt
  | none => dflt

/-- `iter_dates_in_range` (lines 112-118): defaults the minimum to `MIN_DATE`
and the maximum to `get_max_date()` (whose network-determined result is the
`latest` parameter), then yields `min_date + timedelta(days=i)` for
`i in range((max_date - min_date).days + 1)`.  Dates are reported by their
Gregorian ordinal; `range` of a non-positive count is empty. -/
def iter_dates_in_range (min? max? : Option PyTime) (latest : Date) :
    Except PErr (List Int) := do
  let minD ← parse_date (pyOrDefault min? (.str MIN_DATE))
  let maxD ← parse_date (pyOrDefault max? (.date latest))
  let delta : Int := (maxD.toOrdinal : Int) - (minD.toOrdinal : Int)
  pure (List.map (fun i => (minD.toOrdinal : Int) + Int.ofNat i) (List.range (delta + 1).toNat))

/-- Format constant `CSV` (line 22). -/
def CSV : List Char := ['c', 's', 'v']

/-- `CSV_GZ` (line 23). -/
def CSV_GZ : List Char := ['c', 's', 'v', '.', 'g', 'z']

/-- `JSON` (line 24). -/
def JSON : List Char := ['j', 's', 'o', 'n']

/-- `JSONL` (line 25). -/
def JSONL : List Char := ['j', 's', 'o', 'n', 'l']

/-- `JSON_GZ` (line 26). -/
def JSON_GZ : List Char := ['j', 's', 'o', 'n', '.', 'g', 'z']

/-- `JSONL_GZ` (line 27). -/
def JSONL_GZ : List Char := ['j', 's', 'o', 'n', 'l', '.', 'g', 'z']

/-- `PARQUET` (line 28). -/
def PARQUET : List Char := ['p', 'a', 'r', 'q', 'u', 'e', 't']

/-- `PARQUET_GZ` (line 29). -/
def PARQUET_GZ : List Char := ['p', 'a', 'r', 'q', 'u', 'e', 't', '.', 'g', 'z']

/-- `OUTPUT_FORMATS` (line 31). -/
def OUTPUT_FORMATS : List (List Char) :=
  [CSV, CSV_GZ, JSON, JSONL, JSON_GZ, JSONL_GZ, PARQUET, PARQUET_GZ]

/-- `DEFAULT_OUTPUT_FORMAT` (line 33). -/
def DEFAULT_OUTPUT_FORMAT : List Char := CSV_GZ

/-- The Python value passed as `output_format`: `None`, a string, or a list of
strings (the latter because the parameter default is the `OUTPUT_FORMATS` list
itself, line 42). -/
inductive FormatArg where
  | none
  | str (s : List Char)
  | strList (l : List (List Char))
deriving DecidableEq, Repr

/-- Python truthiness of an `output_format` value. -/
def FormatArg.truthy : FormatArg → Bool
  | .none => false
  | .str s => s ≠ []
  | .strList l => l ≠ []

/-- The apostrophe character, used by Python's `repr` of a string. -/
def squoteC : Char := Char.ofNat 39

/-- `str` of a Python list of strings: `[` + comma-separated `repr`s + `]`. -/
def pyListRepr (l : List (List Char)) : List Char :=
  '[' :: (List.intercalate ", ".toList (l.map (fun s => squoteC :: (s ++ [squoteC])))) ++ [']']

/-- `str(x)` as interpolated by the f-string in `get_output_path_by_date`. -/
def FormatArg.interp : FormatArg → List Char
  | .none => "None".toList
  | .str s => s
  | .strList l => pyListRepr l

/-- `output_format or DEFAULT_OUTPUT_FORMAT` (line 93). -/
def FormatArg.orDefault (f : FormatArg) : FormatArg :=
  if f.truthy then f else .str DEFAULT_OUTPUT_FORMAT

/-- The declared default value of the `output_format` parameter of
`download_scores_by_date`, `download_scores_over_time` and
`get_output_path_by_date` (lines 42, 77, 88): the entire `OUTPUT_FORMATS`
list, not `DEFAULT_OUTPUT_FORMAT`. -/
def output_format_default : FormatArg := .strList OUTPUT_FORMATS

/-- `get_output_path_by_date` (lines 88-96): the absolute output directory
(`absDir` stands for `os.path.abspath(output_dir or CWD)`, which is
environment-determined), then `/`, the ISO date, `.`, and the interpolated
output format.  Raises whatever `parse_date` raises. -/
def get_output_path_by_date (absDir : List Char) (dateT : PyTime) (output_format : FormatArg) :
    Except PErr (List Char) := do
  let d ← parse_date dateT
  pure (absDir ++ '/' :: isoformat d ++ '.' :: output_format.orDefault.interp)

/-- `get_download_url` (lines 99-101) for an already-resolved date: the fixed
base URL with the ISO date embedded. -/
def get_download_url (d : Date) : List Char :=
  "https://epss.cyentia.com/epss_scores-".toList ++ isoformat d ++ ".csv.gz".toList

/-- `path.endswith(ext)` on character lists. -/
def endsWithL (s ext : List Char) : Bool := List.isPrefixOf ext.reverse s.reverse

/-- Stable insertion into a list sorted by decreasing length: `x` goes in
front of the first element that is not strictly longer, so among equal
lengths earlier-inserted elements stay first. -/
def insertByLen (x : List Char) : List (List Char) → List (List Char)
  | [] => [x]
  | y :: ys => if x.length < y.length then y :: insertByLen x ys else x :: y :: ys

/-- Stable sort by decreasing length, the model of Python's stable
`sorted(xs, key=len, reverse=True)`. -/
def sortByLenDesc : List (List Char) → List (List Char)
  | [] => []
  | x :: xs => insertByLen x (sortByLenDesc xs)

/-- `sorted(OUTPUT_FORMATS, key=len, reverse=True)` (line 105). -/
def sortedFormats : List (List Char) := sortByLenDesc OUTPUT_FORMATS

/-- `get_output_format_from_path` (lines 104-109): the first format, longest
extensions first, whose `.ext` suffix matches; `ValueError` if none does. -/
def get_output_format_from_path (path : List Char) : Except PErr (List Char) :=
  match sortedFormats.find? (fun fmt => endsWithL path ('.' :: fmt)) with
  | some fmt => .ok fmt
  | Option.none => .error .unknownFormat

/-- Matching the regex `(\d{4}-\d{2}-\d{2})` at the start of the input:
exactly four digits, `-`, two digits, `-`, two digits (any tail is
ignored). -/
def matchIsoAt (l : List Char) : Option (List Char) :=
  match l with
  | a :: b :: c :: d :: '-' :: e :: f :: '-' :: g :: h :: _ =>
    if isDigitC a && isDigitC b && isDigitC c && isDigitC d && isDigitC e && isDigitC f &&
        isDigitC g && isDigitC h then
      some [a, b, c, d, '-', e, f, '-', g, h]
    else Option.none
  | _ => Option.none

/-- `re.search` with the pattern above: the leftmost match, if any. -/
def reSearchIso : List Char → Option (List Char)
  | [] => Option.none
  | l@(_ :: rest) =>
    match matchIsoAt l with
    | some m => some m
    | Option.none => reSearchIso rest

/-- `datetime.date.fromisoformat`: exactly `YYYY-MM-DD` with all-digit
components, and the numbers must form a constructible date. -/
def fromisoformat (s : List Char) : Option Date :=
  match s with
  | [a, b, c, d, s1, e, f, s2, g, h] =>
    if s1 = '-' ∧ s2 = '-' ∧ (isDigitC a && isDigitC b && isDigitC c && isDigitC d &&
        isDigitC e && isDigitC f && isDigitC g && isDigitC h) then
      let dt : Date := ⟨readDigits [a, b, c, d], readDigits [e, f], readDigits [g, h]⟩
      if dt.Valid then some dt else Option.none
    else Option.none
  | _ => Option.none

/-- `get_max_date` (lines 121-130): `location?` is the `Location` header of the
HEAD probe (`none` when the header is absent, which raises `KeyError`); a
location with no embedded date pattern fails the assertion; otherwise the
first match is parsed with `date.fromisoformat` (whose `ValueError` is
modelled as `invalidDate`). -/
def get_max_date (location? : Option (List Char)) : Except PErr Date :=
  match location? with
  | Option.none => .error .discovery
  | some loc =>
    match reSearchIso loc with
    | Option.none => .error .discovery
    | some m =>
      match fromisoformat m with
      | some d => .ok d
      | Option.none => .error .invalidDate

/-- One row of the fetched score table: the `cve_id` column and the remaining
column values. -/
structure Row where
  cve_id : String
  rest : List String
deriving DecidableEq, Repr

/-- Which pandas serializer the dispatch on lines 65-72 selects. -/
inductive Serialization where
  | csv
  | jsonRecords
  | jsonLines
  | parquet
deriving DecidableEq, Repr

/-- The persisted file: serializer, whether gzip compression was applied, and
the rows of the written dataframe (`index=False`: no synthetic index). -/
structure FileData where
  serial : Serialization
  gzip : Bool
  rows : List Row
deriving DecidableEq, Repr

/-- The observable state: the local filesystem (newest write first) and the
number of network fetches performed. -/
structure World where
  fs : List (List Char × FileData)
  fetches : Nat
deriving DecidableEq, Repr

/-- File lookup by path. -/
def fsLookup (fs : List (List Char × FileData)) (p : List Char) : Option FileData :=
  match fs with
  | [] => Option.none
  | (k, v) :: rest => if k = p then some v else fsLookup rest p

/-- Writing a file: the new entry shadows any previous one. -/
def fsWrite (fs : List (List Char × FileData)) (p : List Char) (fd : FileData) :
    List (List Char × FileData) := (p, fd) :: fs

/-- `output_format in [...]` where the members are strings: a list value is
never equal to a string, `None` is never equal to a string. -/
def FormatArg.memL (f : FormatArg) (l : List (List Char)) : Bool :=
  match f with
  | .str s => l.contains s
  | _ => false

/-- The row filter of lines 58-59: when `cve_ids` is truthy, keep the rows
whose `cve_id` is a member; otherwise keep the whole dataframe. -/
def filteredRows (remote : List Row) (cve_ids : Option (List String)) : List Row :=
  match cve_ids with
  | some ids =>
    if ids.isEmpty then remote else List.filter (fun r => ids.contains r.cve_id) remote
  | Option.none => remote

/-- `download_scores_by_date` (lines 38-74).  `remote` is the dataframe parsed
from the (successful) HTTP response, after the `skiprows=1` header skip; the
HTTP layer itself is an external collaborator.  The result pairs the outcome
(`ok` or the raised error) with the final state: compute the URL and path
(both parse the date), return immediately when the path exists and
`overwrite` is false, otherwise fetch, filter by `cve_ids` when that is
truthy, and dispatch on `output_format` — writing for the eight supported
formats, raising `ValueError` otherwise. -/
def download_scores_by_date (remote : List Row) (dateT : PyTime)
    (cve_ids : Option (List String)) (absDir : List Char) (output_format : FormatArg)
    (overwrite : Bool) (w : World) : Except PErr Unit × World :=
  match parse_date dateT with
  | .error e => (.error e, w)
  | .ok d =>
    let _url := get_download_url d
    let path := absDir ++ '/' :: isoformat d ++ '.' :: output_format.orDefault.interp
    if overwrite = false ∧ (fsLookup w.fs path).isSome then (.ok (), w)
    else
      let w1 : World := ⟨w.fs, w.fetches + 1⟩
      let df : List Row := filteredRows remote cve_ids
      let gz : Bool := output_format.memL [CSV_GZ, JSON_GZ, JSONL_GZ, PARQUET_GZ]
      if output_format.memL [CSV, CSV_GZ] then
        (.ok (), ⟨fsWrite w1.fs path ⟨.csv, gz, df⟩, w1.fetches⟩)
      else if output_format.memL [JSON, JSON_GZ] then
        (.ok (), ⟨fsWrite w1.fs path ⟨.jsonRecords, gz, df⟩, w1.fetches⟩)
      else if output_format.memL [JSONL, JSONL_GZ] then
        (.ok (), ⟨fsWrite w1.fs path ⟨.jsonLines, gz, df⟩, w1.fetches⟩)
      else if output_format.memL [PARQUET, PARQUET_GZ] then
        (.ok (), ⟨fsWrite w1.fs path ⟨.parquet, gz, df⟩, w1.fetches⟩)
      else (.error .unsupportedFormat, w1)

/-! ## Helper lemmas -/

/-- On two explicit `date` arguments, `iter_dates_in_range` is the mapped
range of ordinals. -/
theorem iter_dates_date_date (d1 d2 latest : Date) :
    iter_dates_in_range (some (.date d1)) (some (.date d2)) latest =
      .ok (List.map (fun i => (d1.toOrdinal : Int) + Int.ofNat i)
        (List.range (((d2.toOrdinal : Int) - (d1.toOrdinal : Int) + 1).toNat))) := rfl

/-- `digitChar` produces characters with code `48 + k` for digits. -/
theorem digitChar_toNat (k : Nat) (hk : k ≤ 9) : (digitChar k).toNat = 48 + k := by
  interval_cases k <;> rfl

/-- Digit characters pass the digit test. -/
theorem isDigitC_digitChar (k : Nat) (hk : k ≤ 9) : isDigitC (digitChar k) = true := by
  interval_cases k <;> rfl

/-- `digitChar` is injective on digits. -/
theorem digitChar_inj (a b : Nat) (ha : a ≤ 9) (hb : b ≤ 9)
    (h : digitChar a = digitChar b) : a = b := by
  have h2 := congrArg Char.toNat h
  rw [digitChar_toNat a ha, digitChar_toNat b hb] at h2
  omega

/-- All characters of `pad2 n` are digits when `n ≤ 99`. -/
theorem pad2_digits (n : Nat) (hn : n ≤ 99) : ∀ c ∈ pad2 n, isDigitC c = true := by
  simp only [pad2, List.mem_cons, List.mem_singleton, List.not_mem_nil, or_false]
  rintro c (rfl | rfl)
  · exact isDigitC_digitChar _ (by omega)
  · exact isDigitC_digitChar _ (by omega)

/-- All characters of `pad4 n` are digits when `n ≤ 9999`. -/
theorem pad4_digits (n : Nat) (hn : n ≤ 9999) : ∀ c ∈ pad4 n, isDigitC c = true := by
  simp only [pad4, List.mem_cons, List.mem_singleton, List.not_mem_nil, or_false]
  rintro c (rfl | rfl | rfl | rfl)
  · exact isDigitC_digitChar _ (by omega)
  · exact isDigitC_digitChar _ (by omega)
  · exact isDigitC_digitChar _ (by omega)
  · exact isDigitC_digitChar _ (by omega)

/-- Reading back a two-digit rendering. -/
theorem readDigits_pad2 (n : Nat) (hn : n ≤ 99) : readDigits (pad2 n) = n := by
  simp only [readDigits, pad2, List.foldl]
  rw [digitChar_toNat _ (by omega), digitChar_toNat _ (by omega)]
  omega

/-- Reading back a four-digit rendering. -/
theorem readDigits_pad4 (n : Nat) (hn : n ≤ 9999) : readDigits (pad4 n) = n := by
  simp only [readDigits, pad4, List.foldl]
  rw [digitChar_toNat _ (by omega), digitChar_toNat _ (by omega),
    digitChar_toNat _ (by omega), digitChar_toNat _ (by omega)]
  omega

/-- `takeDigits` splits a run of digits followed by a non-digit. -/
theorem takeDigits_append (ds : List Char) (c : Char) (rest : List Char)
    (hds : ∀ x ∈ ds, isDigitC x = true) (hc : isDigitC c = false) :
    takeDigits (ds ++ c :: rest) = (ds, c :: rest) := by
  induction ds with
  | nil => simp [takeDigits, hc]
  | cons a as ih =>
    have ha : isDigitC a = true := hds a (List.mem_cons_self a as)
    have ih2 := ih (fun x hx => hds x (List.mem_cons_of_mem a hx))
    simp only [List.cons_append, takeDigits, ha, if_true, List.append_eq, ih2]

/-- `takeDigits` consumes an all-digit list entirely. -/
theorem takeDigits_all (ds : List Char) (hds : ∀ x ∈ ds, isDigitC x = true) :
    takeDigits ds = (ds, []) := by
  induction ds with
  | nil => rfl
  | cons a as ih =>
    have ha : isDigitC a = true := hds a (List.mem_cons_self a as)
    have ih2 := ih (fun x hx => hds x (List.mem_cons_of_mem a hx))
    simp only [takeDigits, ha, if_true, ih2]

/-- Every month has at most 31 days. -/
theorem daysInMonth_le_31 (y m : Nat) : daysInMonth y m ≤ 31 := by
  unfold daysInMonth
  repeat' split
  all_goals omega

/-- `strptime("%Y-%m-%d")` inverts `isoformat` on valid dates. -/
theorem strptimeIsoDate_isoformat (d : Date) (h : d.Valid) :
    strptimeIsoDate (isoformat d) = some d := by
  obtain ⟨hy1, hy2, hm1, hm2, hd1, hd2⟩ := h
  have hd31 : d.day ≤ 31 := le_trans hd2 (daysInMonth_le_31 d.year d.month)
  have hdash : isDigitC '-' = false := rfl
  have e1 : takeDigits (pad4 d.year ++ ('-' :: (pad2 d.month ++ ('-' :: pad2 d.day)))) =
      (pad4 d.year, '-' :: (pad2 d.month ++ ('-' :: pad2 d.day))) :=
    takeDigits_append _ _ _ (pad4_digits d.year (by omega)) hdash
  have e2 : takeDigits (pad2 d.month ++ ('-' :: pad2 d.day)) =
      (pad2 d.month, '-' :: pad2 d.day) :=
    takeDigits_append _ _ _ (pad2_digits d.month (by omega)) hdash
  have e3 : takeDigits (pad2 d.day) = (pad2 d.day, []) :=
    takeDigits_all _ (pad2_digits d.day (by omega))
  have n1 : pad4 d.year ≠ [] := by simp [pad4]
  have n2 : (pad4 d.year).length ≤ 4 := by simp [pad4]
  have n3 : pad2 d.month ≠ [] := by simp [pad2]
  have n4 : (pad2 d.month).length ≤ 2 := by simp [pad2]
  have n5 : pad2 d.day ≠ [] := by simp [pad2]
  have n6 : (pad2 d.day).length ≤ 2 := by simp [pad2]
  unfold isoformat strptimeIsoDate
  simp only [e1, e2, e3]
  rw [if_pos ⟨n1, n2, n3, n4, n5, n6, trivial⟩]
  rw [readDigits_pad4 d.year (by omega), readDigits_pad2 d.month (by omega),
    readDigits_pad2 d.day (by omega)]
  rw [if_pos (show Date.Valid ⟨d.year, d.month, d.day⟩ from
    ⟨hy1, hy2, hm1, hm2, hd1, hd2⟩)]

/-- `isoformat` always renders ten characters. -/
theorem isoformat_length (d : Date) : (isoformat d).length = 10 := rfl

/-- `isoformat` is injective on valid dates. -/
theorem isoformat_inj (d1 d2 : Date) (h1 : d1.Valid) (h2 : d2.Valid)
    (heq : isoformat d1 = isoformat d2) : d1 = d2 := by
  obtain ⟨hy1, hy2, hm1, hm2, hd1, hd2⟩ := h1
  obtain ⟨ky1, ky2, km1, km2, kd1, kd2⟩ := h2
  have hdd : d1.day ≤ 31 := le_trans hd2 (daysInMonth_le_31 d1.year d1.month)
  have kdd : d2.day ≤ 31 := le_trans kd2 (daysInMonth_le_31 d2.year d2.month)
  simp only [isoformat, pad4, pad2, List.cons_append, List.nil_append, List.cons.injEq,
    and_true, true_and] at heq
  obtain ⟨e1, e2, e3, e4, e5, e6, e7, e8⟩ := heq
  have y1 := digitChar_inj _ _ (by omega) (by omega) e1
  have y2 := digitChar_inj _ _ (by omega) (by omega) e2
  have y3 := digitChar_inj _ _ (by omega) (by omega) e3
  have y4 := digitChar_inj _ _ (by omega) (by omega) e4
  have m1 := digitChar_inj _ _ (by omega) (by omega) e5
  have m2 := digitChar_inj _ _ (by omega) (by omega) e6
  have dd1 := digitChar_inj _ _ (by omega) (by omega) e7
  have dd2 := digitChar_inj _ _ (by omega) (by omega) e8
  obtain ⟨a1, b1, c1⟩ := d1
  obtain ⟨a2, b2, c2⟩ := d2
  simp only at y1 y2 y3 y4 m1 m2 dd1 dd2 hy2 ky2 hm2 km2 hdd kdd
  have ha : a1 = a2 := by omega
  have hb : b1 = b2 := by omega
  have hc : c1 = c2 := by omega
  subst ha
  subst hb
  subst hc
  rfl

/-- The canonical local path determines the date and the format suffix. -/
theorem path_parts_inj (dir : List Char) (d1 d2 : Date) (t1 t2 : List Char)
    (h1 : d1.Valid) (h2 : d2.Valid)
    (heq : dir ++ '/' :: (isoformat d1 ++ '.' :: t1) =
      dir ++ '/' :: (isoformat d2 ++ '.' :: t2)) :
    d1 = d2 ∧ t1 = t2 := by
  have h3 := List.append_cancel_left heq
  have h4 : isoformat d1 ++ '.' :: t1 = isoformat d2 ++ '.' :: t2 := by
    injection h3
  obtain ⟨hiso, htail⟩ := List.append_inj h4 (by rw [isoformat_length, isoformat_length])
  refine ⟨isoformat_inj d1 d2 h1 h2 hiso, ?_⟩
  injection htail

/-- A freshly written file is found at its path. -/
theorem fsLookup_write_self (fs : List (List Char × FileData)) (p : List Char)
    (fd : FileData) : fsLookup (fsWrite fs p fd) p = some fd := by
  simp [fsWrite, fsLookup]

/-- On a fresh path (no existing file) and a supported format,
`download_scores_by_date` performs one fetch and writes the filtered rows at
the canonical path. -/
theorem download_fresh (remote : List Row) (d : Date) (ids? : Option (List String))
    (dir f : List Char) (w : World) (hf : f ∈ OUTPUT_FORMATS)
    (hnone : fsLookup w.fs (dir ++ '/' :: isoformat d ++ '.' :: f) = Option.none) :
    ∃ s : Serialization, ∃ gz : Bool,
      download_scores_by_date remote (.date d) ids? dir (.str f) false w =
        (.ok (), ⟨(dir ++ '/' :: isoformat d ++ '.' :: f,
          ⟨s, gz, filteredRows remote ids?⟩) :: w.fs, w.fetches + 1⟩) := by
  simp only [OUTPUT_FORMATS, List.mem_cons, List.not_mem_nil, or_false] at hf
  rcases hf with rfl | rfl | rfl | rfl | rfl | rfl | rfl | rfl
  · exact ⟨.csv, false, by
      have hnone2 : fsLookup w.fs (dir ++ '/' :: isoformat d ++ '.' ::
          (FormatArg.str CSV).orDefault.interp) = Option.none := hnone
      simp only [download_scores_by_date, parse_date]
      rw [if_neg (fun hc => by rw [hnone2] at hc; exact absurd hc.2 (by simp))]
      rfl⟩
  · exact ⟨.csv, true, by
      have hnone2 : fsLookup w.fs (dir ++ '/' :: isoformat d ++ '.' ::
          (FormatArg.str CSV_GZ).orDefault.interp) = Option.none := hnone
      simp only [download_scores_by_date, parse_date]
      rw [if_neg (fun hc => by rw [hnone2] at hc; exact absurd hc.2 (by simp))]
      rfl⟩
  · exact ⟨.jsonRecords, false, by
      have hnone2 : fsLookup w.fs (dir ++ '/' :: isoformat d ++ '.' ::
          (FormatArg.str JSON).orDefault.interp) = Option.none := hnone
      simp only [download_scores_by_date, parse_date]
      rw [if_neg (fun hc => by rw [hnone2] at hc; exact absurd hc.2 (by simp))]
      rfl⟩
  · exact ⟨.jsonLines, false, by
      have hnone2 : fsLookup w.fs (dir ++ '/' :: isoformat d ++ '.' ::
          (FormatArg.str JSONL).orDefault.interp) = Option.none := hnone
      simp only [download_scores_by_date, parse_date]
      rw [if_neg (fun hc => by rw [hnone2] at hc; exact absurd hc.2 (by simp))]
      rfl⟩
  · exact ⟨.jsonRecords, true, by
      have hnone2 : fsLookup w.fs (dir ++ '/' :: isoformat d ++ '.' ::
          (FormatArg.str JSON_GZ).orDefault.interp) = Option.none := hnone
      simp only [download_scores_by_date, parse_date]
      rw [if_neg (fun hc => by rw [hnone2] at hc; exact absurd hc.2 (by simp))]
      rfl⟩
  · exact ⟨.jsonLines, true, by
      have hnone2 : fsLookup w.fs (dir ++ '/' :: isoformat d ++ '.' ::
          (FormatArg.str JSONL_GZ).orDefault.interp) = Option.none := hnone
      simp only [download_scores_by_date, parse_date]
      rw [if_neg (fun hc => by rw [hnone2] at hc; exact absurd hc.2 (by simp))]
      rfl⟩
  · exact ⟨.parquet, false, by
      have hnone2 : fsLookup w.fs (dir ++ '/' :: isoformat d ++ '.' ::
          (FormatArg.str PARQUET).orDefault.interp) = Option.none := hnone
      simp only [download_scores_by_date, parse_date]
      rw [if_neg (fun hc => by rw [hnone2] at hc; exact absurd hc.2 (by simp))]
      rfl⟩
  · exact ⟨.parquet, true, by
      have hnone2 : fsLookup w.fs (dir ++ '/' :: isoformat d ++ '.' ::
          (FormatArg.str PARQUET_GZ).orDefault.interp) = Option.none := hnone
      simp only [download_scores_by_date, parse_date]
      rw [if_neg (fun hc => by rw [hnone2] at hc; exact absurd hc.2 (by simp))]
      rfl⟩

/-- For a non-empty format string the `or`-default is the identity. -/
theorem orDefault_interp_str (f : List Char) (hne : f ≠ []) :
    (FormatArg.str f).orDefault.interp = f := by
  simp [FormatArg.orDefault, FormatArg.truthy, hne, FormatArg.interp]

/-- Every supported format name is non-empty. -/
theorem output_formats_ne_nil (f : List Char) (hf : f ∈ OUTPUT_FORMATS) : f ≠ [] := by
  simp only [OUTPUT_FORMATS, List.mem_cons, List.not_mem_nil, or_false] at hf
  rcases hf with rfl | rfl | rfl | rfl | rfl | rfl | rfl | rfl <;> simp [CSV, CSV_GZ, JSON,
    JSONL, JSON_GZ, JSONL_GZ, PARQUET, PARQUET_GZ]

/-! ## Claims -/

/-- Claim C1, counterexample: with `min = 2022-07-16 > max = 2022-07-15`,
`iter_dates_in_range` does not fail with any error; it returns the empty
sequence. -/
theorem c1_counterexample :
    iter_dates_in_range (some (.str ['2', '0', '2', '2', '-', '0', '7', '-', '1', '6']))
      (some (.str ['2', '0', '2', '2', '-', '0', '7', '-', '1', '5'])) ⟨2022, 8, 1⟩ =
      .ok [] := rfl

/-- Claim C1, amended: for every pair of dates with `minDate` strictly greater
than `maxDate`, `iter_dates_in_range` succeeds and yields the empty sequence
of dates (rather than failing with a `RangeError`). -/
theorem c1_min_gt_max_empty (d1 d2 latest : Date)
    (h : d2.toOrdinal < d1.toOrdinal) :
    iter_dates_in_range (some (.date d1)) (some (.date d2)) latest = .ok [] := by
  rw [iter_dates_date_date]
  have h0 : (((d2.toOrdinal : Int) - (d1.toOrdinal : Int) + 1)).toNat = 0 := by omega
  rw [h0]
  rfl

/-- Claim C1, witness for the amended theorem. -/
theorem c1_witness :
    iter_dates_in_range (some (.date ⟨2022, 7, 16⟩)) (some (.date ⟨2022, 7, 15⟩))
      ⟨2022, 8, 1⟩ = .ok [] :=
  c1_min_gt_max_empty ⟨2022, 7, 16⟩ ⟨2022, 7, 15⟩ ⟨2022, 8, 1⟩ (by decide)

/-- Claim C2: for `minDate ≤ maxDate`, the yielded sequence has exactly
`(maxDate - minDate) + 1` dates, in strictly ascending order, each consecutive
date exactly one day after the previous, starting at `minDate` and ending at
`maxDate` (dates reported by Gregorian ordinal); in particular a one-date
range yields exactly that date. -/
theorem c2_iter_dates_in_range_exact (d1 d2 latest : Date) (l : List Int)
    (h1 : d1.Valid) (h2 : d2.Valid) (hle : d1.toOrdinal ≤ d2.toOrdinal)
    (hl : iter_dates_in_range (some (.date d1)) (some (.date d2)) latest = .ok l) :
    l.length = (d2.toOrdinal - d1.toOrdinal) + 1 ∧
    l.head? = some (d1.toOrdinal : Int) ∧
    l.getLast? = some (d2.toOrdinal : Int) ∧
    l.Pairwise (fun a b => a < b) ∧
    (∀ i : Nat, ∀ hi : i + 1 < l.length,
      l.get ⟨i + 1, hi⟩ = l.get ⟨i, Nat.lt_of_succ_lt hi⟩ + 1) := by
  rw [iter_dates_date_date] at hl
  injection hl with hl
  subst hl
  have hn : (((d2.toOrdinal : Int) - (d1.toOrdinal : Int) + 1)).toNat =
      (d2.toOrdinal - d1.toOrdinal) + 1 := by omega
  rw [hn]
  refine ⟨by simp, ?_, ?_, ?_, ?_⟩
  · rw [List.range_succ_eq_map]
    simp
  · rw [List.range_succ]
    rw [List.map_append]
    simp [List.getLast?_concat]
    omega
  · refine List.Pairwise.map _ ?_ (List.pairwise_lt_range _)
    intro a b hab
    simp only [Int.ofNat_eq_coe]
    omega
  · intro i hi
    simp only [List.get_map, List.get_range, Int.ofNat_eq_coe]
    push_cast
    ring

/-- Claim C2, witness: a concrete six-day range. -/
theorem c2_witness :
    List.length [(738351 : Int), 738352, 738353, 738354, 738355, 738356] =
        (Date.toOrdinal ⟨2022, 7, 20⟩ - Date.toOrdinal ⟨2022, 7, 15⟩) + 1 ∧
      List.head? [(738351 : Int), 738352, 738353, 738354, 738355, 738356] =
        some ((Date.toOrdinal ⟨2022, 7, 15⟩ : Int)) ∧
      List.getLast? [(738351 : Int), 738352, 738353, 738354, 738355, 738356] =
        some ((Date.toOrdinal ⟨2022, 7, 20⟩ : Int)) ∧
      List.Pairwise (fun a b => a < b)
        [(738351 : Int), 738352, 738353, 738354, 738355, 738356] ∧
      (∀ i : Nat,
        ∀ hi : i + 1 < List.length [(738351 : Int), 738352, 738353, 738354, 738355, 738356],
        List.get [(738351 : Int), 738352, 738353, 738354, 738355, 738356] ⟨i + 1, hi⟩ =
          List.get [(738351 : Int), 738352, 738353, 738354, 738355, 738356]
            ⟨i, Nat.lt_of_succ_lt hi⟩ + 1) :=
  c2_iter_dates_in_range_exact ⟨2022, 7, 15⟩ ⟨2022, 7, 20⟩ ⟨2022, 8, 1⟩
    [(738351 : Int), 738352, 738353, 738354, 738355, 738356]
    (by decide) (by decide) (by decide) (by rfl)

/-- Claim C6, counterexample: an explicitly supplied minimum date below
`MIN_DATE` (2022-07-15) is *not* clamped to it: the range starting at
2022-07-01 begins with the ordinal of 2022-07-01 (738337), not with the
ordinal of 2022-07-15 (738351). -/
theorem c6_counterexample :
    iter_dates_in_range (some (.str ['2', '0', '2', '2', '-', '0', '7', '-', '0', '1']))
        (some (.str ['2', '0', '2', '2', '-', '0', '7', '-', '0', '3'])) ⟨2022, 8, 1⟩ =
      .ok [738337, 738338, 738339] ∧
    (738337 : Int) = (Date.toOrdinal ⟨2022, 7, 1⟩ : Int) ∧
    (738337 : Int) ≠ (Date.toOrdinal ⟨2022, 7, 15⟩ : Int) :=
  ⟨rfl, by decide, by decide⟩

/-- Claim C6, amended: an unset (`None`) minimum date defaults to
`MIN_DATE` = 2022-07-15, and such a request is not rejected; but an explicitly
supplied minimum date earlier than `MIN_DATE` is used as-is — the range starts
at the supplied minimum, with no clamping (and still no rejection). -/
theorem c6_min_default_no_clamp :
    (∀ max? : Option PyTime, ∀ latest : Date,
      iter_dates_in_range Option.none max? latest =
        iter_dates_in_range (some (.date ⟨2022, 7, 15⟩)) max? latest) ∧
    parse_date (.str MIN_DATE) = .ok ⟨2022, 7, 15⟩ ∧
    (∀ d1 d2 latest : Date, ∀ l : List Int, d1.toOrdinal ≤ d2.toOrdinal →
      iter_dates_in_range (some (.date d1)) (some (.date d2)) latest = .ok l →
      l.head? = some (d1.toOrdinal : Int)) := by
  refine ⟨fun max? latest => rfl, rfl, fun d1 d2 latest l hle hl => ?_⟩
  rw [iter_dates_date_date] at hl
  injection hl with hl
  subst hl
  have hn : (((d2.toOrdinal : Int) - (d1.toOrdinal : Int) + 1)).toNat =
      (d2.toOrdinal - d1.toOrdinal) + 1 := by omega
  rw [hn, List.range_succ_eq_map]
  simp

/-- Claim C3: for every supported output format `f`, date `d` and (absolute)
output directory, `get_output_format_from_path` applied to the path produced
by `get_output_path_by_date` returns exactly `f` — in particular
distinguishing `csv` from `csv.gz` — and the path is injective in
(date, format) for a fixed output directory. -/
theorem c3_path_format_roundtrip_injective :
    (∀ dir : List Char, ∀ d : Date, ∀ f : List Char, f ∈ OUTPUT_FORMATS →
      ∃ p : List Char, get_output_path_by_date dir (.date d) (.str f) = .ok p ∧
        get_output_format_from_path p = .ok f) ∧
    (∀ dir : List Char, ∀ d1 d2 : Date, ∀ f1 f2 : List Char,
      d1.Valid → d2.Valid → f1 ∈ OUTPUT_FORMATS → f2 ∈ OUTPUT_FORMATS →
      get_output_path_by_date dir (.date d1) (.str f1) =
        get_output_path_by_date dir (.date d2) (.str f2) →
      d1 = d2 ∧ f1 = f2) := by
  constructor
  · intro dir d f hf
    simp only [OUTPUT_FORMATS, List.mem_cons, List.not_mem_nil, or_false] at hf
    rcases hf with rfl | rfl | rfl | rfl | rfl | rfl | rfl | rfl <;>
      refine ⟨_, rfl, ?_⟩ <;>
      · simp only [get_output_format_from_path, sortedFormats, sortByLenDesc, insertByLen,
          OUTPUT_FORMATS, CSV, CSV_GZ, JSON, JSONL, JSON_GZ, JSONL_GZ, PARQUET, PARQUET_GZ,
          List.find?, endsWithL, isoformat, pad4, pad2, List.reverse_append, List.reverse_cons,
          List.isPrefixOf, List.append_assoc, List.cons_append, List.nil_append,
          List.append_nil, List.reverse_nil, FormatArg.orDefault, FormatArg.truthy,
          FormatArg.interp]
        simp
  · intro dir d1 d2 f1 f2 h1 h2 hf1 hf2 heq
    simp only [OUTPUT_FORMATS, List.mem_cons, List.not_mem_nil, or_false] at hf1 hf2
    have hp : dir ++ '/' :: (isoformat d1 ++ '.' :: f1) =
        dir ++ '/' :: (isoformat d2 ++ '.' :: f2) := by
      rcases hf1 with rfl | rfl | rfl | rfl | rfl | rfl | rfl | rfl <;>
        rcases hf2 with rfl | rfl | rfl | rfl | rfl | rfl | rfl | rfl <;>
        · have heq2 := heq
          simp only [get_output_path_by_date, parse_date, FormatArg.orDefault,
            FormatArg.truthy, FormatArg.interp, CSV, CSV_GZ, JSON, JSONL, JSON_GZ, JSONL_GZ,
            PARQUET, PARQUET_GZ, pure, Except.pure, bind, Except.bind, Except.ok.injEq,
            List.cons_append, List.append_assoc, List.nil_append] at heq2
          simpa [CSV, CSV_GZ, JSON, JSONL, JSON_GZ, JSONL_GZ, PARQUET, PARQUET_GZ,
            List.append_assoc, List.cons_append] using heq2
    exact path_parts_inj dir d1 d2 f1 f2 h1 h2 hp

/-- Claim C3, witness: the `csv` and `csv.gz` paths for 2022-07-15 round-trip
to their formats, and equal paths force equal (date, format) pairs. -/
theorem c3_witness :
    (∃ p : List Char,
      get_output_path_by_date ['/', 'o'] (.date ⟨2022, 7, 15⟩) (.str CSV) = .ok p ∧
        get_output_format_from_path p = .ok CSV) ∧
    (∃ p : List Char,
      get_output_path_by_date ['/', 'o'] (.date ⟨2022, 7, 15⟩) (.str CSV_GZ) = .ok p ∧
        get_output_format_from_path p = .ok CSV_GZ) :=
  ⟨c3_path_format_roundtrip_injective.1 ['/', 'o'] ⟨2022, 7, 15⟩ CSV (by decide),
    c3_path_format_roundtrip_injective.1 ['/', 'o'] ⟨2022, 7, 15⟩ CSV_GZ (by decide)⟩

/-- Claim C4: if the computed local path already exists and `overwrite` is
false, `download_scores_by_date` returns immediately as a no-op success — the
state (filesystem and fetch counter) is unchanged, so no network fetch happens
and the existing file stays byte-identical — and consequently invoking it
twice on a fresh path performs the network fetch only once: the first run
fetches and writes, the second returns its state unchanged. -/
theorem c4_idempotent_skip :
    (∀ remote : List Row, ∀ dateT : PyTime, ∀ ids? : Option (List String),
      ∀ dir path : List Char, ∀ f : FormatArg, ∀ w : World,
      get_output_path_by_date dir dateT f = .ok path →
      (fsLookup w.fs path).isSome = true →
      download_scores_by_date remote dateT ids? dir f false w = (.ok (), w)) ∧
    (∀ remote : List Row, ∀ d : Date, ∀ ids? : Option (List String),
      ∀ dir f : List Char, ∀ w : World, f ∈ OUTPUT_FORMATS →
      fsLookup w.fs (dir ++ '/' :: isoformat d ++ '.' :: f) = Option.none →
      ∃ w1 : World,
        download_scores_by_date remote (.date d) ids? dir (.str f) false w = (.ok (), w1) ∧
        w1.fetches = w.fetches + 1 ∧
        download_scores_by_date remote (.date d) ids? dir (.str f) false w1 = (.ok (), w1)) := by
  constructor
  · intro remote dateT ids? dir path f w hp hsome
    unfold get_output_path_by_date at hp
    cases hparse : parse_date dateT with
    | error e => rw [hparse] at hp; simp [bind, Except.bind] at hp
    | ok d =>
      rw [hparse] at hp
      simp only [bind, Except.bind, pure, Except.pure, Except.ok.injEq] at hp
      subst hp
      simp only [download_scores_by_date, hparse]
      rw [if_pos ⟨by trivial, hsome⟩]
  · intro remote d ids? dir f w hf hnone
    have hne : f ≠ [] := output_formats_ne_nil f hf
    obtain ⟨s, gz, hrun⟩ := download_fresh remote d ids? dir f w hf hnone
    refine ⟨_, hrun, rfl, ?_⟩
    simp only [download_scores_by_date, parse_date]
    rw [orDefault_interp_str f hne]
    rw [if_pos ⟨by trivial, by simp [fsLookup]⟩]

/-- Claim C4, witness: with an existing file at the computed path and
`overwrite` false, the call is a no-op that preserves the state. -/
theorem c4_witness :
    download_scores_by_date [] (.date ⟨2022, 7, 15⟩) Option.none ['/', 'o'] (.str CSV) false
        ⟨[(['/', 'o', '/', '2', '0', '2', '2', '-', '0', '7', '-', '1', '5', '.', 'c', 's', 'v'],
          ⟨.csv, false, []⟩)], 5⟩ =
      (.ok (), ⟨[(['/', 'o', '/', '2', '0', '2', '2', '-', '0', '7', '-', '1', '5', '.', 'c',
        's', 'v'], ⟨.csv, false, []⟩)], 5⟩) :=
  c4_idempotent_skip.1 [] (.date ⟨2022, 7, 15⟩) Option.none ['/', 'o']
    ['/', 'o', '/', '2', '0', '2', '2', '-', '0', '7', '-', '1', '5', '.', 'c', 's', 'v']
    (.str CSV)
    ⟨[(['/', 'o', '/', '2', '0', '2', '2', '-', '0', '7', '-', '1', '5', '.', 'c', 's', 'v'],
      ⟨.csv, false, []⟩)], 5⟩ rfl rfl

/-- Claim C5: for every fetched table, the persisted rows are exactly the rows
whose `cve_id` is in the (non-empty) filter set, in original relative order
(a sublist, hence no additions or duplications) with all other columns
unchanged; an empty or absent filter keeps every row. -/
theorem c5_filter_rows :
    ∀ remote : List Row, ∀ d : Date, ∀ ids? : Option (List String), ∀ dir f : List Char,
      ∀ w : World, f ∈ OUTPUT_FORMATS →
      fsLookup w.fs (dir ++ '/' :: isoformat d ++ '.' :: f) = Option.none →
      ∃ fd : FileData,
        (download_scores_by_date remote (.date d) ids? dir (.str f) false w).1 = .ok () ∧
        fsLookup (download_scores_by_date remote (.date d) ids? dir (.str f) false w).2.fs
          (dir ++ '/' :: isoformat d ++ '.' :: f) = some fd ∧
        (∀ ids : List String, ids? = some ids → ids ≠ [] →
          fd.rows = remote.filter (fun r => decide (r.cve_id ∈ ids)) ∧
          List.Sublist fd.rows remote ∧
          (∀ r : Row, r ∈ fd.rows ↔ r ∈ remote ∧ r.cve_id ∈ ids)) ∧
        ((ids? = Option.none ∨ ids? = some []) → fd.rows = remote) := by
  intro remote d ids? dir f w hf hnone
  obtain ⟨s, gz, hrun⟩ := download_fresh remote d ids? dir f w hf hnone
  refine ⟨⟨s, gz, filteredRows remote ids?⟩,
    by rw [hrun], by rw [hrun]; exact fsLookup_write_self w.fs _ _, ?_, ?_⟩
  · rintro ids rfl hne
    have hrows : (FileData.mk s gz (filteredRows remote (some ids))).rows =
        List.filter (fun r => ids.contains r.cve_id) remote := by
      simp [filteredRows, List.isEmpty_iff, hne]
    refine ⟨?_, ?_, ?_⟩
    · rw [hrows]
      refine List.filter_congr ?_
      intro r hr
      by_cases h : r.cve_id ∈ ids <;> simp [h]
    · rw [hrows]
      exact List.filter_sublist remote
    · intro r
      rw [hrows]
      simp [List.mem_filter]
  · rintro (rfl | rfl) <;> simp [filteredRows]

/-- Claim C5, witness: filtering a two-row table by one identifier keeps
exactly the matching row. -/
theorem c5_witness :
    ∃ fd : FileData,
      (download_scores_by_date [⟨"CVE-1", ["a"]⟩, ⟨"CVE-2", ["b"]⟩] (.date ⟨2022, 7, 15⟩)
        (some ["CVE-2"]) ['/', 'o'] (.str CSV) false ⟨[], 0⟩).1 = .ok () ∧
      fsLookup ((download_scores_by_date [⟨"CVE-1", ["a"]⟩, ⟨"CVE-2", ["b"]⟩]
          (.date ⟨2022, 7, 15⟩) (some ["CVE-2"]) ['/', 'o'] (.str CSV) false ⟨[], 0⟩).2.fs)
        (['/', 'o'] ++ '/' :: isoformat ⟨2022, 7, 15⟩ ++ '.' :: CSV) = some fd ∧
      (∀ ids : List String, some ["CVE-2"] = some ids → ids ≠ [] →
        fd.rows = List.filter (fun r => decide (r.cve_id ∈ ids))
            [⟨"CVE-1", ["a"]⟩, ⟨"CVE-2", ["b"]⟩] ∧
        List.Sublist fd.rows [⟨"CVE-1", ["a"]⟩, ⟨"CVE-2", ["b"]⟩] ∧
        (∀ r : Row, r ∈ fd.rows ↔ r ∈ [⟨"CVE-1", ["a"]⟩, ⟨"CVE-2", ["b"]⟩] ∧
          r.cve_id ∈ ids)) ∧
      ((some ["CVE-2"] = (Option.none : Option (List String)) ∨ some ["CVE-2"] = some []) →
        fd.rows = [⟨"CVE-1", ["a"]⟩, ⟨"CVE-2", ["b"]⟩]) :=
  c5_filter_rows [⟨"CVE-1", ["a"]⟩, ⟨"CVE-2", ["b"]⟩] ⟨2022, 7, 15⟩ (some ["CVE-2"])
    ['/', 'o'] CSV ⟨[], 0⟩ (by decide) rfl

/-- Claim C8: for every supported input (`date`, `datetime`, ISO string,
numeric epoch), `parse_date` is consistent — parsing the canonical ISO string
of the resolved date returns the same date — and an input of an unsupported
type fails with `ValueError` (`InvalidDateError`).  The `d.Valid` hypothesis
records that the resolved value is a constructible `datetime.date`, which
Python guarantees for every value `parse_date` can return. -/
theorem c8_parse_date_consistent :
    (∀ x : PyTime, ∀ d : Date, parse_date x = .ok d → d.Valid →
      parse_date (.str (isoformat d)) = .ok d) ∧
    parse_date .other = .error .invalidDate := by
  refine ⟨fun x d hx hv => ?_, rfl⟩
  simp only [parse_date, strptimeIsoDate_isoformat d hv]

/-- Claim C8, witness: the ISO string input `"2022-07-15"` resolves to
2022-07-15, and re-parsing its canonical ISO rendering returns it again. -/
theorem c8_witness :
    parse_date (.str ['2', '0', '2', '2', '-', '0', '7', '-', '1', '5']) = .ok ⟨2022, 7, 15⟩ ∧
    parse_date (.str (isoformat ⟨2022, 7, 15⟩)) = .ok ⟨2022, 7, 15⟩ :=
  ⟨rfl, c8_parse_date_consistent.1 (.str ['2', '0', '2', '2', '-', '0', '7', '-', '1', '5'])
    ⟨2022, 7, 15⟩ rfl (by decide)⟩

/-- Claim C6, witness for the amended theorem: a minimum below `MIN_DATE` is
taken as the effective start of the range. -/
theorem c6_witness :
    List.head? [(738337 : Int), 738338, 738339] = some ((Date.toOrdinal ⟨2022, 7, 1⟩ : Int)) :=
  c6_min_default_no_clamp.2.2 ⟨2022, 7, 1⟩ ⟨2022, 7, 3⟩ ⟨2022, 8, 1⟩
    [738337, 738338, 738339] (by decide) (by rfl)

/-- Claim C7, counterexample: with the unsupported format `xml`, when the
computed local path already exists and `overwrite` is false,
`download_scores_by_date` returns as a silent no-op success — it does not fail
with any error. -/
theorem c7_counterexample :
    (['x', 'm', 'l'] ∈ OUTPUT_FORMATS → False) ∧
    download_scores_by_date [] (.date ⟨2022, 7, 15⟩) Option.none ['/', 'o']
        (.str ['x', 'm', 'l']) false
        ⟨[(['/', 'o', '/', '2', '0', '2', '2', '-', '0', '7', '-', '1', '5', '.', 'x', 'm', 'l'],
          ⟨.csv, false, []⟩)], 0⟩ =
      (.ok (), ⟨[(['/', 'o', '/', '2', '0', '2', '2', '-', '0', '7', '-', '1', '5', '.', 'x',
        'm', 'l'], ⟨.csv, false, []⟩)], 0⟩) :=
  ⟨by decide, rfl⟩

/-- An `output_format` outside `OUTPUT_FORMATS` matches none of the four
dispatch groups. -/
theorem memL_groups_false (f : FormatArg) (hf : f.memL OUTPUT_FORMATS = false) :
    f.memL [CSV, CSV_GZ] = false ∧ f.memL [JSON, JSON_GZ] = false ∧
    f.memL [JSONL, JSONL_GZ] = false ∧ f.memL [PARQUET, PARQUET_GZ] = false := by
  cases f with
  | str s =>
    simp only [FormatArg.memL, OUTPUT_FORMATS] at hf ⊢
    simp at hf ⊢
    tauto
  | none => exact ⟨rfl, rfl, rfl, rfl⟩
  | strList l => exact ⟨rfl, rfl, rfl, rfl⟩

/-- Claim C7, amended: for every format value outside the supported set,
`download_scores_by_date` never writes to the local path (the filesystem is
unchanged in every case), and it fails with `ValueError`
(`UnsupportedFormatError`) whenever the idempotent skip does not return first,
i.e. whenever `overwrite` is true or no file exists at the computed path;
when a file already exists and `overwrite` is false it instead returns as a
no-op success (the counterexample above). -/
theorem c7_unsupported_format :
    (∀ remote : List Row, ∀ dateT : PyTime, ∀ ids? : Option (List String),
      ∀ dir : List Char, ∀ f : FormatArg, ∀ ow : Bool, ∀ w : World,
      f.memL OUTPUT_FORMATS = false →
      (download_scores_by_date remote dateT ids? dir f ow w).2.fs = w.fs) ∧
    (∀ remote : List Row, ∀ dateT : PyTime, ∀ d : Date, ∀ ids? : Option (List String),
      ∀ dir : List Char, ∀ f : FormatArg, ∀ ow : Bool, ∀ w : World,
      f.memL OUTPUT_FORMATS = false →
      parse_date dateT = .ok d →
      (ow = true ∨
        fsLookup w.fs (dir ++ '/' :: isoformat d ++ '.' :: f.orDefault.interp) =
          Option.none) →
      download_scores_by_date remote dateT ids? dir f ow w =
        (.error .unsupportedFormat, ⟨w.fs, w.fetches + 1⟩)) := by
  have hdisp := memL_groups_false
  constructor
  · intro remote dateT ids? dir f ow w hf
    obtain ⟨h1, h2, h3, h4⟩ := hdisp f hf
    simp only [download_scores_by_date]
    cases hparse : parse_date dateT with
    | error e => rfl
    | ok d =>
      simp only
      split
      · rfl
      · simp [h1, h2, h3, h4]
  · intro remote dateT d ids? dir f ow w hf hparse hskip
    obtain ⟨h1, h2, h3, h4⟩ := hdisp f hf
    simp only [download_scores_by_date, hparse]
    rw [if_neg ?_]
    · simp [h1, h2, h3, h4]
    · rcases hskip with rfl | hnone
      · rintro ⟨hcontra, -⟩
        exact absurd hcontra (by simp)
      · rintro ⟨-, hcontra⟩
        rw [hnone] at hcontra
        exact absurd hcontra (by simp)

/-- Claim C7, witness for the amended theorem: on a fresh state, format `xml`
fails with the unsupported-format `ValueError` and writes nothing. -/
theorem c7_witness :
    download_scores_by_date [] (.date ⟨2022, 7, 15⟩) Option.none ['/', 'o']
        (.str ['x', 'm', 'l']) false ⟨[], 0⟩ =
      (.error .unsupportedFormat, ⟨[], 1⟩) :=
  c7_unsupported_format.2 [] (.date ⟨2022, 7, 15⟩) ⟨2022, 7, 15⟩ Option.none ['/', 'o']
    (.str ['x', 'm', 'l']) false ⟨[], 0⟩ (by decide) rfl (Or.inr rfl)

/-- Claim C9, counterexample: a redirect location can contain a substring
matching `\d{4}-\d{2}-\d{2}` (here `9999-99-99`) from which no calendar date
can be parsed: `get_max_date` then fails with `date.fromisoformat`'s
`ValueError` instead of returning a date (and instead of `DiscoveryError`). -/
theorem c9_counterexample :
    reSearchIso "epss_scores-9999-99-99.csv.gz".toList =
      some ['9', '9', '9', '9', '-', '9', '9', '-', '9', '9'] ∧
    get_max_date (some "epss_scores-9999-99-99.csv.gz".toList) = .error .invalidDate :=
  ⟨rfl, rfl⟩

/-- Claim C9, amended: `get_max_date` fails with `DiscoveryError` when the
probe yields no redirect target (`KeyError` on the missing header) or when
the redirect target contains no substring matching `\d{4}-\d{2}-\d{2}`; when
such a substring exists, the first match is given to `date.fromisoformat`:
a valid date is returned, and digits that do not form a valid calendar date
fail with `ValueError` (`InvalidDateError`) rather than `DiscoveryError`. -/
theorem c9_max_date_discovery :
    get_max_date Option.none = .error .discovery ∧
    (∀ loc : List Char, reSearchIso loc = Option.none →
      get_max_date (some loc) = .error .discovery) ∧
    (∀ loc m : List Char, ∀ d : Date, reSearchIso loc = some m →
      fromisoformat m = some d → get_max_date (some loc) = .ok d) ∧
    (∀ loc m : List Char, reSearchIso loc = some m →
      fromisoformat m = Option.none → get_max_date (some loc) = .error .invalidDate) := by
  refine ⟨rfl, ?_, ?_, ?_⟩
  · intro loc h1
    simp only [get_max_date, h1]
  · intro loc m d h1 h2
    simp only [get_max_date, h1, h2]
  · intro loc m h1 h2
    simp only [get_max_date, h1, h2]

/-- Claim C9, witness for the amended theorem: a realistic redirect target
yields its embedded date. -/
theorem c9_witness :
    get_max_date (some "epss_scores-2025-01-03.csv.gz".toList) = .ok ⟨2025, 1, 3⟩ :=
  c9_max_date_discovery.2.2.1 "epss_scores-2025-01-03.csv.gz".toList
    ['2', '0', '2', '5', '-', '0', '1', '-', '0', '3'] ⟨2025, 1, 3⟩ rfl rfl

/-- Claim C10: the function-level default of `output_format` is the entire
`OUTPUT_FORMATS` list rather than `csv.gz`; the `or DEFAULT_OUTPUT_FORMAT`
fallback never triggers on it (a non-empty list is truthy), so calling
`get_output_path_by_date` without an explicit format yields a path whose
extension is the stringified Python list, and `download_scores_by_date` on a
fresh path then terminates in the unsupported-format `ValueError` branch
instead of writing a `csv.gz` file. -/
theorem c10_list_default_bug :
    output_format_default = .strList OUTPUT_FORMATS ∧
    output_format_default.orDefault = output_format_default ∧
    (∀ dir : List Char, ∀ d : Date,
      get_output_path_by_date dir (.date d) output_format_default =
        .ok (dir ++ '/' :: isoformat d ++ '.' :: pyListRepr OUTPUT_FORMATS)) ∧
    pyListRepr OUTPUT_FORMATS =
      ("[\x27csv\x27, \x27csv.gz\x27, \x27json\x27, \x27jsonl\x27, \x27json.gz\x27, \x27jsonl.gz\x27, \x27parquet\x27, \x27parquet.gz\x27]").toList ∧
    (∀ remote : List Row, ∀ ids? : Option (List String), ∀ dir : List Char, ∀ d : Date,
      ∀ w : World,
      fsLookup w.fs (dir ++ '/' :: isoformat d ++ '.' :: pyListRepr OUTPUT_FORMATS) =
        Option.none →
      download_scores_by_date remote (.date d) ids? dir output_format_default false w =
        (.error .unsupportedFormat, ⟨w.fs, w.fetches + 1⟩)) := by
  refine ⟨rfl, rfl, fun dir d => rfl, rfl, ?_⟩
  intro remote ids? dir d w hnone
  have hnone2 : fsLookup w.fs (dir ++ '/' :: isoformat d ++ '.' ::
      output_format_default.orDefault.interp) = Option.none := hnone
  simp only [download_scores_by_date, parse_date]
  rw [if_neg ?_]
  · rfl
  · rintro ⟨-, hcontra⟩
    rw [hnone2] at hcontra
    exact absurd hcontra (by simp)

/-- Claim C10, witness: on an empty filesystem, the defaulted call errors out
after one fetch and writes nothing. -/
theorem c10_witness :
    download_scores_by_date [] (.date ⟨2022, 7, 15⟩) Option.none ['/', 'o']
        output_format_default false ⟨[], 0⟩ =
      (.error .unsupportedFormat, ⟨[], 1⟩) :=
  c10_list_default_bug.2.2.2.2 [] Option.none ['/', 'o'] ⟨2022, 7, 15⟩ ⟨[], 0⟩ rfl

end Epss
